import Mathlib

/-!
Shallow embedding of the NLog sink dispatch engine (Go), covering:

  * core/entry.go          — severity levels and log entries
  * handler "stats" file   — OverflowPolicy, DefaultLevelPolicy, Stats counters
  * handler/filehandler/file_async.go — AsyncFileHandler.Handle and Close
  * handler/filehandler/doc.go — sizeTrackingWriter, fileBase.write,
                                 rotateIfNeeded, rotate
  * handler/multi.go       — MultiHandler.Handle and Close

Go channels are modelled as a bounded FIFO list plus a closed flag; a
non-blocking send in a select with a default clause succeeds exactly when
the buffer has room, and a send on a closed channel is a runtime panic
(modelled as Except.error).  Go panics are modelled as Except.error
carrying the panic message.  Real-time waits (the Block overflow policy's
timer and the close signal) are modelled by an abstract three-way race
outcome naming which select branch fires.
-/

namespace NLog

/-- Severity levels from core/entry.go (Debug < Info < Warn < Error < Fatal < Panic). -/
inductive Level where
  | DebugLevel
  | InfoLevel
  | WarnLevel
  | ErrorLevel
  | FatalLevel
  | PanicLevel
deriving DecidableEq, Repr

/-- OverflowPolicy from the handler package: how to handle full async queues. -/
inductive OverflowPolicy where
  | DropNewest
  | DropOldest
  | Block
deriving DecidableEq, Repr

/-- DefaultLevelPolicy from the handler package, as a Go map lookup
(absent keys yield none).  Only Debug, Info, Warn and Error appear in the
map literal; Error maps to Block, the other three to DropNewest. -/
def DefaultLevelPolicy : Level → Option OverflowPolicy
  | .DebugLevel => some .DropNewest
  | .InfoLevel => some .DropNewest
  | .WarnLevel => some .DropNewest
  | .ErrorLevel => some .Block
  | .FatalLevel => none
  | .PanicLevel => none

/-- The policy lookup performed at the top of every async Handle:
`policy, ok := h.overflowPolicy[entry.Level]; if !ok { policy = DropNewest }`. -/
def resolvePolicy (pol : Level → Option OverflowPolicy) (l : Level) : OverflowPolicy :=
  (pol l).getD .DropNewest

/-- Log entry (core.Entry), reduced to the fields the dispatch engine reads. -/
structure Entry where
  level : Level
  message : String
deriving DecidableEq, Repr

/-- Handler statistics counters (handler Stats struct). -/
structure Stats where
  DroppedDebug : Nat
  DroppedInfo : Nat
  DroppedWarn : Nat
  DroppedError : Nat
  BlockedTotal : Nat
  ProcessedTotal : Nat
deriving DecidableEq, Repr

/-- NewStats: all counters are zero. -/
def NewStats : Stats := ⟨0, 0, 0, 0, 0, 0⟩

/-- The message of the panic in Stats.IncrementDropped's default branch. -/
def unhandledLevelPanic : String :=
  "unhandled default case, Please create a issue in github.com/Philipp01105/NLog"

/-- Stats.IncrementDropped: a switch over Debug/Info/Warn/Error whose default
branch panics (modelled as Except.error with the source panic message). -/
def Stats.IncrementDropped (s : Stats) (level : Level) : Except String Stats :=
  match level with
  | .DebugLevel => .ok { s with DroppedDebug := s.DroppedDebug + 1 }
  | .InfoLevel => .ok { s with DroppedInfo := s.DroppedInfo + 1 }
  | .WarnLevel => .ok { s with DroppedWarn := s.DroppedWarn + 1 }
  | .ErrorLevel => .ok { s with DroppedError := s.DroppedError + 1 }
  | _ => .error unhandledLevelPanic

/-- Stats.IncrementBlocked. -/
def Stats.IncrementBlocked (s : Stats) : Stats :=
  { s with BlockedTotal := s.BlockedTotal + 1 }

/-- Stats.IncrementProcessed. -/
def Stats.IncrementProcessed (s : Stats) : Stats :=
  { s with ProcessedTotal := s.ProcessedTotal + 1 }

/-- Stats.GetDropped: the per-level dropped counter (0 in the default branch). -/
def Stats.GetDropped (s : Stats) (level : Level) : Nat :=
  match level with
  | .DebugLevel => s.DroppedDebug
  | .InfoLevel => s.DroppedInfo
  | .WarnLevel => s.DroppedWarn
  | .ErrorLevel => s.DroppedError
  | _ => 0

/-- A buffered Go channel of entries: FIFO buffer (head = oldest), capacity
fixed at construction, and a closed flag. -/
structure Chan where
  buf : List Entry
  cap : Nat
  isClosed : Bool
deriving DecidableEq, Repr

/-- Non-blocking send (`select { case ch <- e: ... default: ... }`).
A send on a closed channel panics; otherwise it succeeds exactly when the
buffer has room, appending at the back. -/
def trySend (c : Chan) (e : Entry) : Except String (Bool × Chan) :=
  if c.isClosed then
    .error "send on closed channel"
  else if c.buf.length < c.cap then
    .ok (true, { c with buf := c.buf ++ [e] })
  else
    .ok (false, c)

/-- Non-blocking receive (`select { case x := <-ch: ... default: ... }`).
The first component is some when the receive case fires: it yields the
oldest buffered entry, or none (the zero value) when the channel is closed
and empty; the receive case does not fire on an open empty channel. -/
def tryRecv (c : Chan) : Option (Option Entry) × Chan :=
  match c.buf with
  | e :: rest => (some (some e), { c with buf := rest })
  | [] => if c.isClosed then (some none, c) else (none, c)

/-- Which branch of the Block-policy select fires when the first
non-blocking enqueue has failed: the consumer frees `consumed` slots and
the queued send proceeds, or the reusable timer fires at the block
timeout, or the handler's closed channel is signalled. -/
inductive BlockRace where
  | spaceFreed (consumed : Nat)
  | timerFired
  | closingSignal
deriving DecidableEq, Repr

/-- Observable effect of the synchronous fallback `h.write(entry)` on the
caller's thread: on success the processed counter is incremented and nil
is returned, otherwise the write error is returned unchanged.  The write
outcome is the abstract parameter `writeErr`. -/
def syncWrite (st : Stats) (writeErr : Option String) : Stats × Option String :=
  match writeErr with
  | none => (st.IncrementProcessed, none)
  | some e => (st, some e)

/-- Result of one AsyncFileHandler.Handle call: the queue afterwards, the
stats afterwards, the entries written synchronously on the caller's
thread, and the returned error (none = nil). -/
structure HandleResult where
  queue : Chan
  stats : Stats
  syncWritten : List Entry
  ret : Option String
deriving DecidableEq, Repr

/-- AsyncFileHandler.Handle (file_async.go lines 60-143): resolve the
overflow policy for the entry's level, then run the Block / DropOldest /
DropNewest enqueue logic against the bounded queue.  `race` resolves the
Block-policy select, `writeErr` is the outcome of the synchronous
fallback write.  The spaceFreed race is only meaningful when the consumer
really freed room; when it did not, the model returns the marker error
value "race-not-realizable" on the nil-error path (no real execution
reaches it, and the theorems guard it by hypothesis). -/
def asyncHandle (pol : Level → Option OverflowPolicy) (race : BlockRace)
    (writeErr : Option String) (c : Chan) (st : Stats) (e : Entry) :
    Except String HandleResult :=
  match resolvePolicy pol e.level with
  | .Block =>
    match trySend c e with
    | .error msg => .error msg
    | .ok (true, c1) => .ok ⟨c1, st, [], none⟩
    | .ok (false, c1) =>
      match race with
      | .spaceFreed n =>
        match trySend { c1 with buf := c1.buf.drop n } e with
        | .error msg => .error msg
        | .ok (true, c2) => .ok ⟨c2, st, [], none⟩
        | .ok (false, c2) => .ok ⟨c2, st, [], some "race-not-realizable"⟩
      | .timerFired =>
        let st1 := st.IncrementBlocked
        let res := syncWrite st1 writeErr
        .ok ⟨c1, res.1, [e], res.2⟩
      | .closingSignal =>
        let res := syncWrite st writeErr
        .ok ⟨c1, res.1, [e], res.2⟩
  | .DropOldest =>
    match trySend c e with
    | .error msg => .error msg
    | .ok (true, c1) => .ok ⟨c1, st, [], none⟩
    | .ok (false, c1) =>
      match tryRecv c1 with
      | (fired, c2) =>
        match (match fired with
               | some _ => st.IncrementDropped e.level
               | none => .ok st) with
        | .error msg => .error msg
        | .ok st1 =>
          match trySend c2 e with
          | .error msg => .error msg
          | .ok (true, c3) => .ok ⟨c3, st1, [], none⟩
          | .ok (false, c3) =>
            match st1.IncrementDropped e.level with
            | .error msg => .error msg
            | .ok st2 => .ok ⟨c3, st2, [], none⟩
  | .DropNewest =>
    match trySend c e with
    | .error msg => .error msg
    | .ok (true, c1) => .ok ⟨c1, st, [], none⟩
    | .ok (false, c1) =>
      match st.IncrementDropped e.level with
      | .error msg => .error msg
      | .ok st1 => .ok ⟨c1, st1, [], none⟩

/-- The queue-channel part of AsyncFileHandler.Close (file_async.go line
215, `close(h.queue)` after the consumer goroutine has exited): the queue
channel is closed. -/
def closeQueue (c : Chan) : Chan := { c with isClosed := true }

/-! ## The C5 scenario: async sink, capacity 2, DropNewest for Info

State machine over producer Handle calls and consumer dequeue-and-write
steps (AsyncFileHandler.process, including the close-time drain, whose
per-entry effect is identical: dequeue, write, count processed). -/

/-- The Info record sent in the concrete scenario. -/
def infoEntry : Entry := ⟨.InfoLevel, "info"⟩

/-- Scenario state: the queue, the stats, and how many of the 10 records
the producer has sent so far. -/
structure ScenState where
  queue : Chan
  stats : Stats
  sent : Nat
deriving DecidableEq, Repr

/-- One step of the scenario: either the producer sends the next Info
record through AsyncFileHandler.Handle (default policy, so DropNewest for
Info), or the consumer dequeues the oldest entry, writes it successfully,
and increments the processed counter (file_async.go process loop; the
drain loop inside Close performs exactly the same per-entry step). -/
inductive ScenStep : ScenState → ScenState → Prop where
  | produce (s : ScenState) (r : HandleResult)
      (hsent : s.sent < 10)
      (h : asyncHandle DefaultLevelPolicy .timerFired none s.queue s.stats infoEntry
             = .ok r) :
      ScenStep s ⟨r.queue, r.stats, s.sent + 1⟩
  | consume (s : ScenState) (e : Entry) (rest : List Entry)
      (h : s.queue.buf = e :: rest) :
      ScenStep s ⟨{ s.queue with buf := rest }, s.stats.IncrementProcessed, s.sent⟩

/-- Reflexive-transitive closure of ScenStep: the reachable states of a run. -/
inductive ScenReach : ScenState → ScenState → Prop where
  | refl (s : ScenState) : ScenReach s s
  | tail {s t u : ScenState} : ScenReach s t → ScenStep t u → ScenReach s u

/-- Initial scenario state: empty open queue of capacity `cap`, fresh stats,
nothing sent. -/
def scenInit (cap : Nat) : ScenState := ⟨⟨[], cap, false⟩, NewStats, 0⟩

/-! ## sizeTrackingWriter and the buffered writer (doc.go) -/

/-- Byte-count view of the bufio.Writer wrapping the sizeTrackingWriter:
`size` is the internal buffer capacity (4096 at construction), `buffered`
the bytes currently held in the internal buffer, and `flushed` the
sizeTrackingWriter's `written` field — the bytes actually handed to the
OS-level file writer. -/
structure BufWriterState where
  size : Nat
  buffered : Nat
  flushed : Nat
deriving DecidableEq, Repr

/-- bufio.Writer.Write of `n` bytes over an error-free underlying writer,
at the byte-count level: while the data exceeds the available buffer
space, either bypass the buffer entirely (empty buffer, large write) or
fill the buffer and flush it; the tail that fits is kept buffered.  The
return value `n` (all bytes accepted) is what fileBase.write adds to
currentSize. -/
def bufioWrite (s : BufWriterState) (n : Nat) : BufWriterState :=
  if n ≤ s.size - s.buffered then
    { s with buffered := s.buffered + n }
  else if s.buffered = 0 then
    { s with flushed := s.flushed + n }
  else
    bufioWrite { size := s.size, buffered := 0, flushed := s.flushed + s.size }
      (n - (s.size - s.buffered))
termination_by s.buffered
decreasing_by
  omega

/-- The size-accounting part of fileBase.write (doc.go lines 72-91,
BufferFormatter path): after a successful `n, err := b.bufWriter.Write(...)`
the handler does `b.currentSize += int64(n)` — n being the bytes accepted
by the buffered writer, flushed or not. -/
structure FileWriteState where
  currentSize : Nat
  bw : BufWriterState
deriving DecidableEq, Repr

/-- One successful fileBase.write of an entry whose formatted size is `n`
bytes, viewed through the rotation counter and the buffered writer. -/
def fileBaseWrite (s : FileWriteState) (n : Nat) : FileWriteState :=
  { currentSize := s.currentSize + n, bw := bufioWrite s.bw n }

/-! ## File rotation (doc.go fileBase.rotate / rotateIfNeeded) -/

/-- Which file handle fileBase.file currently holds. -/
inductive FileRef where
  | original
  | reopenedOriginal
  | freshFile
deriving DecidableEq, Repr

/-- Outcomes of the file-system calls made during one rotation attempt
(none = success, some e = the error returned by that call). -/
structure FsOracle where
  flushErr : Option String
  syncErr : Option String
  closeErr : Option String
  renameErr : Option String
  reopenErr : Option String
  openNewErr : Option String
deriving DecidableEq, Repr

/-- Rotation configuration thresholds (0 disables a trigger), plus the
hasRotation flag computed at construction. -/
structure RotConfig where
  maxSize : Nat
  maxAge : Nat
  rotateInterval : Nat
  maxBackups : Nat
  hasRotation : Bool
deriving DecidableEq, Repr

/-- Rotation-relevant handler state: byte count since last rotation, the
last-rotation timestamp (abstract clock), how many backup cleanups have
run, and which file handle is open. -/
structure RotState where
  currentSize : Nat
  lastRotateTime : Nat
  cleanups : Nat
  file : FileRef
deriving DecidableEq, Repr

/-- fileBase.rotate (doc.go lines 164-208): flush, sync, close; rename the
file with a timestamp suffix; on rename failure reopen the original path
(logging continues on the reopened file) and return the rename error —
currentSize, lastRotateTime and backup cleanup are all untouched.  On
rename success run cleanup when maxBackups > 0, open a fresh file, reset
currentSize to 0 and lastRotateTime to now. -/
def rotate (cfg : RotConfig) (o : FsOracle) (now : Nat) (s : RotState) :
    RotState × Option String :=
  match o.flushErr with
  | some e => (s, some e)
  | none =>
    match o.syncErr with
    | some e => (s, some e)
    | none =>
      match o.closeErr with
      | some e => (s, some e)
      | none =>
        match o.renameErr with
        | some e =>
          match o.reopenErr with
          | some e2 =>
            (s, some ("rotation failed: " ++ e ++ ", reopen failed: " ++ e2))
          | none => ({ s with file := .reopenedOriginal }, some e)
        | none =>
          let s1 := if 0 < cfg.maxBackups then
              { s with cleanups := s.cleanups + 1 } else s
          match o.openNewErr with
          | some e => (s1, some e)
          | none =>
            ({ s1 with file := .freshFile, currentSize := 0, lastRotateTime := now },
             none)

/-- fileBase.rotateIfNeeded (doc.go lines 134-161): rotate when any of the
size, age or interval triggers fires. -/
def rotateIfNeeded (cfg : RotConfig) (o : FsOracle) (now : Nat) (s : RotState) :
    RotState × Option String :=
  if cfg.hasRotation = false then (s, none)
  else if (0 < cfg.maxSize ∧ cfg.maxSize ≤ s.currentSize)
       ∨ (0 < cfg.maxAge ∧ cfg.maxAge ≤ now - s.lastRotateTime)
       ∨ (0 < cfg.rotateInterval ∧ cfg.rotateInterval ≤ now - s.lastRotateTime) then
    rotate cfg o now s
  else (s, none)

/-- The rotation-and-size skeleton of fileBase.write: the rotation check
runs first and its error is returned to the caller (no bytes are written);
otherwise the formatted bytes are written (`bwErr` is the buffered
writer's outcome) and on success currentSize grows by `n`. -/
def fileWriteChecked (cfg : RotConfig) (o : FsOracle) (now : Nat)
    (s : RotState) (n : Nat) (bwErr : Option String) : RotState × Option String :=
  match rotateIfNeeded cfg o now s with
  | (s1, some e) => (s1, some e)
  | (s1, none) =>
    match bwErr with
    | some e => (s1, some e)
    | none => ({ s1 with currentSize := s1.currentSize + n }, none)

/-! ## Fan-out handler (multi.go) -/

/-- MultiHandler.Handle's loop (multi.go lines 84-92) over children whose
Handle results are given by `results`, starting at child index `i`:
returns the indices of the children actually invoked, in order, and the
`lastErr` value (each non-nil child error overwrites it). -/
def multiLoop : List (Option String) → Nat → List Nat × Option String
  | [], _ => ([], none)
  | r :: rest, i =>
    let tailRes := multiLoop rest (i + 1)
    (i :: tailRes.1,
     match tailRes.2 with
     | some e => some e
     | none => r)

/-- MultiHandler.Handle over the list of child results. -/
def multiHandleRun (results : List (Option String)) : List Nat × Option String :=
  multiLoop results 0

/-- MultiHandler.Close (multi.go lines 101-109): the same loop shape over
the children's Close results. -/
def multiCloseRun (results : List (Option String)) : List Nat × Option String :=
  multiLoop results 0

/-- Modelled from the spec's words, for comparison with the code: "the
returned error is the error of the last child that failed (nil when no
child fails)" — the last non-nil element of the result list. -/
def lastFailureSpec (results : List (Option String)) : Option String :=
  (results.filterMap id).getLast?

/-! ## Helper lemmas -/

theorem trySend_full {c : Chan} (hopen : c.isClosed = false)
    (hfull : c.cap ≤ c.buf.length) (e : Entry) :
    trySend c e = .ok (false, c) := by
  simp [trySend, hopen]
  omega

theorem trySend_room {c : Chan} (hopen : c.isClosed = false)
    (hroom : c.buf.length < c.cap) (e : Entry) :
    trySend c e = .ok (true, { c with buf := c.buf ++ [e] }) := by
  simp [trySend, hopen, hroom]

theorem syncWrite_ret (st : Stats) (w : Option String) :
    (syncWrite st w).2 = w := by
  cases w <;> rfl

theorem syncWrite_blocked (st : Stats) (w : Option String) :
    (syncWrite st w).1.BlockedTotal = st.BlockedTotal := by
  cases w <;> rfl

/-! ## Claim theorems -/

/-- Claim C1: on the Block overflow policy, when the non-blocking enqueue
fails, the wait is resolved by a three-way race bounded by the block
timer; if the timer fires first, Handle increments the blocked counter
and synchronously writes the record on the caller's thread, returning the
write's result; if the close signal fires first it performs the same
synchronous fallback without touching the blocked counter. -/
theorem asyncHandle_block_bounded_fallback
    (pol : Level → Option OverflowPolicy) (w : Option String)
    (c : Chan) (st : Stats) (e : Entry)
    (hpol : resolvePolicy pol e.level = .Block)
    (hopen : c.isClosed = false)
    (hfull : c.cap ≤ c.buf.length) :
    asyncHandle pol .timerFired w c st e
      = .ok ⟨c, (syncWrite st.IncrementBlocked w).1, [e], w⟩ ∧
    (syncWrite st.IncrementBlocked w).1.BlockedTotal = st.BlockedTotal + 1 ∧
    asyncHandle pol .closingSignal w c st e
      = .ok ⟨c, (syncWrite st w).1, [e], w⟩ ∧
    (syncWrite st w).1.BlockedTotal = st.BlockedTotal := by
  have hts := trySend_full hopen hfull e
  refine ⟨?_, ?_, ?_, syncWrite_blocked st w⟩
  · simp [asyncHandle, hpol, hts, syncWrite_ret]
  · rw [syncWrite_blocked]
    rfl
  · simp [asyncHandle, hpol, hts, syncWrite_ret]

/-- Witness for C1 at a concrete input: default policy, an Error-level
record (which resolves to Block), a full open queue of capacity 1. -/
theorem asyncHandle_block_bounded_fallback_witness :
    asyncHandle DefaultLevelPolicy .timerFired none
        ⟨[⟨.InfoLevel, "q"⟩], 1, false⟩ NewStats ⟨.ErrorLevel, "m"⟩
      = .ok ⟨⟨[⟨.InfoLevel, "q"⟩], 1, false⟩,
             (syncWrite NewStats.IncrementBlocked none).1, [⟨.ErrorLevel, "m"⟩], none⟩ ∧
    (syncWrite NewStats.IncrementBlocked none).1.BlockedTotal = NewStats.BlockedTotal + 1 ∧
    asyncHandle DefaultLevelPolicy .closingSignal none
        ⟨[⟨.InfoLevel, "q"⟩], 1, false⟩ NewStats ⟨.ErrorLevel, "m"⟩
      = .ok ⟨⟨[⟨.InfoLevel, "q"⟩], 1, false⟩,
             (syncWrite NewStats none).1, [⟨.ErrorLevel, "m"⟩], none⟩ ∧
    (syncWrite NewStats none).1.BlockedTotal = NewStats.BlockedTotal :=
  asyncHandle_block_bounded_fallback DefaultLevelPolicy none
    ⟨[⟨.InfoLevel, "q"⟩], 1, false⟩ NewStats ⟨.ErrorLevel, "m"⟩
    (by decide) rfl (by decide)

/-- Counterexample to claim C2 as stated: a Fatal-level record resolves to
DropNewest under the default policy map, and with the queue full the drop
path calls Stats.IncrementDropped, whose switch has no Fatal case — the
call panics instead of returning nil. -/
theorem asyncHandle_dropNewest_counterexample :
    asyncHandle DefaultLevelPolicy .timerFired none
        ⟨[⟨.InfoLevel, "a"⟩], 1, false⟩ NewStats ⟨.FatalLevel, "b"⟩
      = .error unhandledLevelPanic := by
  rfl

/-- Claim C2 (amended: restricted to levels that have a dropped counter,
Debug/Info/Warn/Error): with DropNewest resolved and the queue full, the
record is discarded (queue unchanged), the dropped counter for the
record's level is incremented exactly once (all other counters are
untouched), and Handle returns nil. -/
theorem asyncHandle_dropNewest_full_drops
    (pol : Level → Option OverflowPolicy) (race : BlockRace) (w : Option String)
    (c : Chan) (st : Stats) (e : Entry)
    (hpol : resolvePolicy pol e.level = .DropNewest)
    (hlvl : e.level = .DebugLevel ∨ e.level = .InfoLevel ∨
            e.level = .WarnLevel ∨ e.level = .ErrorLevel)
    (hopen : c.isClosed = false)
    (hfull : c.cap ≤ c.buf.length) :
    ∃ st1, asyncHandle pol race w c st e = .ok ⟨c, st1, [], none⟩ ∧
      st1.GetDropped e.level = st.GetDropped e.level + 1 ∧
      (∀ l, l ≠ e.level → st1.GetDropped l = st.GetDropped l) ∧
      st1.BlockedTotal = st.BlockedTotal ∧
      st1.ProcessedTotal = st.ProcessedTotal := by
  obtain ⟨lv, msg⟩ := e
  have hts := trySend_full hopen hfull ⟨lv, msg⟩
  have key : ∀ st1, st.IncrementDropped lv = .ok st1 →
      asyncHandle pol race w c st ⟨lv, msg⟩ = .ok ⟨c, st1, [], none⟩ := by
    intro st1 hinc
    simp [asyncHandle, hpol, hts, hinc]
  have hlv : lv = .DebugLevel ∨ lv = .InfoLevel ∨ lv = .WarnLevel ∨ lv = .ErrorLevel := hlvl
  rcases hlv with h | h | h | h <;> subst h <;>
    refine ⟨_, key _ rfl, rfl, ?_, rfl, rfl⟩ <;>
    intro l hl <;> cases l <;> simp_all [Stats.GetDropped]

/-- Witness for the amended C2: an Info record, default policy, full open
queue of capacity 1. -/
theorem asyncHandle_dropNewest_full_drops_witness :
    ∃ st1, asyncHandle DefaultLevelPolicy .timerFired none
        ⟨[⟨.InfoLevel, "a"⟩], 1, false⟩ NewStats ⟨.InfoLevel, "b"⟩
        = .ok ⟨⟨[⟨.InfoLevel, "a"⟩], 1, false⟩, st1, [], none⟩ ∧
      st1.GetDropped .InfoLevel = NewStats.GetDropped .InfoLevel + 1 ∧
      (∀ l, l ≠ Level.InfoLevel → st1.GetDropped l = NewStats.GetDropped l) ∧
      st1.BlockedTotal = NewStats.BlockedTotal ∧
      st1.ProcessedTotal = NewStats.ProcessedTotal :=
  asyncHandle_dropNewest_full_drops DefaultLevelPolicy .timerFired none
    ⟨[⟨.InfoLevel, "a"⟩], 1, false⟩ NewStats ⟨.InfoLevel, "b"⟩
    (by decide) (by simp) rfl (by decide)

/-- Counterexample to claim C3 as stated: with DropOldest configured for
the Fatal level and the queue full, removing the oldest record leads to
Stats.IncrementDropped being called with the incoming Fatal level, whose
switch has no Fatal case — Handle panics instead of returning nil. -/
theorem asyncHandle_dropOldest_counterexample :
    asyncHandle (fun l => if l = Level.FatalLevel then some .DropOldest else none)
        .timerFired none ⟨[⟨.InfoLevel, "a"⟩], 1, false⟩ NewStats ⟨.FatalLevel, "b"⟩
      = .error unhandledLevelPanic := by
  rfl

/-- Claim C3 (amended: restricted to levels that have a dropped counter,
Debug/Info/Warn/Error): with DropOldest resolved, the enqueue is
non-blocking; on failure against a full non-empty queue, the oldest
queued record is removed and one drop is counted (under the incoming
record's level), the retry then succeeds and the incoming record is
enqueued at the back; when no room can be made (capacity 0), the retry
fails and the incoming record is dropped and counted instead; in all
cases Handle returns nil and exactly one drop is counted. -/
theorem asyncHandle_dropOldest_makes_room
    (pol : Level → Option OverflowPolicy) (race : BlockRace) (w : Option String)
    (c : Chan) (st : Stats) (e : Entry)
    (hpol : resolvePolicy pol e.level = .DropOldest)
    (hlvl : e.level = .DebugLevel ∨ e.level = .InfoLevel ∨
            e.level = .WarnLevel ∨ e.level = .ErrorLevel)
    (hopen : c.isClosed = false) :
    (c.buf.length = c.cap → 0 < c.cap →
      ∃ st1, asyncHandle pol race w c st e
          = .ok ⟨⟨c.buf.tail ++ [e], c.cap, false⟩, st1, [], none⟩ ∧
        st1.GetDropped e.level = st.GetDropped e.level + 1 ∧
        (∀ l, l ≠ e.level → st1.GetDropped l = st.GetDropped l) ∧
        st1.BlockedTotal = st.BlockedTotal ∧
        st1.ProcessedTotal = st.ProcessedTotal) ∧
    (c.cap = 0 → c.buf = [] →
      ∃ st1, asyncHandle pol race w c st e = .ok ⟨c, st1, [], none⟩ ∧
        st1.GetDropped e.level = st.GetDropped e.level + 1 ∧
        (∀ l, l ≠ e.level → st1.GetDropped l = st.GetDropped l) ∧
        st1.BlockedTotal = st.BlockedTotal ∧
        st1.ProcessedTotal = st.ProcessedTotal) := by
  obtain ⟨lv, msg⟩ := e
  have hlv : lv = .DebugLevel ∨ lv = .InfoLevel ∨ lv = .WarnLevel ∨ lv = .ErrorLevel := hlvl
  constructor
  · intro hfull hpos
    obtain ⟨hd, tl, hbuf⟩ : ∃ hd tl, c.buf = hd :: tl := by
      cases hb : c.buf with
      | nil =>
        rw [hb] at hfull
        simp at hfull
        omega
      | cons hd tl => exact ⟨hd, tl, rfl⟩
    have hts : trySend c ⟨lv, msg⟩ = .ok (false, c) :=
      trySend_full hopen (le_of_eq hfull.symm) ⟨lv, msg⟩
    have htl : tl.length < c.cap := by
      rw [hbuf] at hfull
      simp at hfull
      omega
    have hretry : trySend { c with buf := tl } ⟨lv, msg⟩
        = .ok (true, { c with buf := tl ++ [⟨lv, msg⟩] }) :=
      trySend_room (c := { c with buf := tl }) hopen htl ⟨lv, msg⟩
    simp only [hopen] at hretry
    rcases hlv with h | h | h | h <;> subst h
    · exact ⟨{ st with DroppedDebug := st.DroppedDebug + 1 },
        by simp [asyncHandle, hpol, hts, tryRecv, hbuf, Stats.IncrementDropped,
                 hretry, hopen],
        rfl, by intro l hl; cases l <;> simp_all [Stats.GetDropped], rfl, rfl⟩
    · exact ⟨{ st with DroppedInfo := st.DroppedInfo + 1 },
        by simp [asyncHandle, hpol, hts, tryRecv, hbuf, Stats.IncrementDropped,
                 hretry, hopen],
        rfl, by intro l hl; cases l <;> simp_all [Stats.GetDropped], rfl, rfl⟩
    · exact ⟨{ st with DroppedWarn := st.DroppedWarn + 1 },
        by simp [asyncHandle, hpol, hts, tryRecv, hbuf, Stats.IncrementDropped,
                 hretry, hopen],
        rfl, by intro l hl; cases l <;> simp_all [Stats.GetDropped], rfl, rfl⟩
    · exact ⟨{ st with DroppedError := st.DroppedError + 1 },
        by simp [asyncHandle, hpol, hts, tryRecv, hbuf, Stats.IncrementDropped,
                 hretry, hopen],
        rfl, by intro l hl; cases l <;> simp_all [Stats.GetDropped], rfl, rfl⟩
  · intro hcap hbuf
    have hts : trySend c ⟨lv, msg⟩ = .ok (false, c) :=
      trySend_full hopen (by rw [hcap]; exact Nat.zero_le _) ⟨lv, msg⟩
    rcases hlv with h | h | h | h <;> subst h
    · exact ⟨{ st with DroppedDebug := st.DroppedDebug + 1 },
        by simp [asyncHandle, hpol, hts, tryRecv, hbuf, Stats.IncrementDropped, hopen],
        rfl, by intro l hl; cases l <;> simp_all [Stats.GetDropped], rfl, rfl⟩
    · exact ⟨{ st with DroppedInfo := st.DroppedInfo + 1 },
        by simp [asyncHandle, hpol, hts, tryRecv, hbuf, Stats.IncrementDropped, hopen],
        rfl, by intro l hl; cases l <;> simp_all [Stats.GetDropped], rfl, rfl⟩
    · exact ⟨{ st with DroppedWarn := st.DroppedWarn + 1 },
        by simp [asyncHandle, hpol, hts, tryRecv, hbuf, Stats.IncrementDropped, hopen],
        rfl, by intro l hl; cases l <;> simp_all [Stats.GetDropped], rfl, rfl⟩
    · exact ⟨{ st with DroppedError := st.DroppedError + 1 },
        by simp [asyncHandle, hpol, hts, tryRecv, hbuf, Stats.IncrementDropped, hopen],
        rfl, by intro l hl; cases l <;> simp_all [Stats.GetDropped], rfl, rfl⟩

/-- Witness for the amended C3: DropOldest configured for Info, full open
queue of capacity 1 holding one Warn record; the Warn record is removed,
one Info drop is counted, the Info record is enqueued and nil returned. -/
theorem asyncHandle_dropOldest_makes_room_witness :
    ∃ st1, asyncHandle (fun l => if l = Level.InfoLevel then some .DropOldest else none)
        .timerFired none ⟨[⟨.WarnLevel, "x"⟩], 1, false⟩ NewStats ⟨.InfoLevel, "y"⟩
        = .ok ⟨⟨[⟨.InfoLevel, "y"⟩], 1, false⟩, st1, [], none⟩ ∧
      st1.GetDropped .InfoLevel = NewStats.GetDropped .InfoLevel + 1 ∧
      (∀ l, l ≠ Level.InfoLevel → st1.GetDropped l = NewStats.GetDropped l) ∧
      st1.BlockedTotal = NewStats.BlockedTotal ∧
      st1.ProcessedTotal = NewStats.ProcessedTotal :=
  (asyncHandle_dropOldest_makes_room
      (fun l => if l = Level.InfoLevel then some .DropOldest else none)
      .timerFired none ⟨[⟨.WarnLevel, "x"⟩], 1, false⟩ NewStats ⟨.InfoLevel, "y"⟩
      (by decide) (by simp) rfl).1 rfl (by decide)

/-- Counterexample to claim C4 as stated: under the default configuration
the Fatal level (which is at Error and above) does not resolve to Block —
it is absent from the default map and resolves to DropNewest. -/
theorem resolvePolicy_default_fatal_counterexample :
    resolvePolicy DefaultLevelPolicy .FatalLevel = .DropNewest ∧
    resolvePolicy DefaultLevelPolicy .FatalLevel ≠ .Block := by
  decide

/-- Claim C4 (amended: the exception only covers Error itself): every
level absent from the policy map resolves to DropNewest; under the
default configuration Error resolves to Block while Fatal and Panic,
being absent from the default map, resolve to DropNewest. -/
theorem resolvePolicy_default_resolution
    (pol : Level → Option OverflowPolicy) (l : Level)
    (habs : pol l = none) :
    resolvePolicy pol l = .DropNewest ∧
    resolvePolicy DefaultLevelPolicy .ErrorLevel = .Block ∧
    resolvePolicy DefaultLevelPolicy .FatalLevel = .DropNewest ∧
    resolvePolicy DefaultLevelPolicy .PanicLevel = .DropNewest := by
  refine ⟨?_, by decide, by decide, by decide⟩
  simp [resolvePolicy, habs]

/-- Witness for the amended C4: the empty policy map at Debug level. -/
theorem resolvePolicy_default_resolution_witness :
    resolvePolicy (fun _ => none) .DebugLevel = .DropNewest ∧
    resolvePolicy DefaultLevelPolicy .ErrorLevel = .Block ∧
    resolvePolicy DefaultLevelPolicy .FatalLevel = .DropNewest ∧
    resolvePolicy DefaultLevelPolicy .PanicLevel = .DropNewest :=
  resolvePolicy_default_resolution (fun _ => none) .DebugLevel rfl

/-- Handle on an Info record under the default policy map is the
DropNewest path: enqueue when there is room, otherwise count one Info
drop and discard. -/
theorem asyncHandle_info_default (race : BlockRace) (w : Option String)
    (c : Chan) (st : Stats) (hopen : c.isClosed = false) :
    asyncHandle DefaultLevelPolicy race w c st infoEntry =
      if c.buf.length < c.cap then
        .ok ⟨⟨c.buf ++ [infoEntry], c.cap, false⟩, st, [], none⟩
      else
        .ok ⟨c, { st with DroppedInfo := st.DroppedInfo + 1 }, [], none⟩ := by
  by_cases hroom : c.buf.length < c.cap
  · have hts := trySend_room hopen hroom ⟨.InfoLevel, "info"⟩
    simp [asyncHandle, resolvePolicy, DefaultLevelPolicy, infoEntry, hts, hroom, hopen]
  · have hts := trySend_full hopen (c := c) (by omega) ⟨.InfoLevel, "info"⟩
    simp [asyncHandle, resolvePolicy, DefaultLevelPolicy, infoEntry, hts, hroom,
          Stats.IncrementDropped]

/-- Invariant of the C5 scenario: every sent record is accounted for
exactly once — processed, dropped, or still queued — and the queue keeps
its construction-time capacity and stays open. -/
def scenInv (s : ScenState) : Prop :=
  s.stats.ProcessedTotal + s.stats.DroppedInfo + s.queue.buf.length = s.sent ∧
  s.queue.cap = 2 ∧ s.queue.isClosed = false

theorem scenStep_inv {s t : ScenState} (hst : ScenStep s t) (hinv : scenInv s) :
    scenInv t := by
  obtain ⟨hsum, hcap, hopen⟩ := hinv
  cases hst with
  | produce r hsent h =>
    rw [asyncHandle_info_default _ _ _ _ hopen] at h
    by_cases hroom : s.queue.buf.length < s.queue.cap
    · rw [if_pos hroom] at h
      simp only [Except.ok.injEq] at h
      subst h
      refine ⟨?_, by simp [hcap], by simp⟩
      simp
      omega
    · rw [if_neg hroom] at h
      simp only [Except.ok.injEq] at h
      subst h
      refine ⟨?_, by simp [hcap], by simp [hopen]⟩
      simp
      omega
  | consume e rest h =>
    refine ⟨?_, by simp [hcap], by simp [hopen]⟩
    rw [h] at hsum
    simp [Stats.IncrementProcessed] at hsum ⊢
    omega

theorem scenReach_inv {s : ScenState} (h : ScenReach (scenInit 2) s) : scenInv s := by
  induction h with
  | refl => exact ⟨rfl, rfl, rfl⟩
  | tail _ hstep ih => exact scenStep_inv hstep ih

/-- Claim C5: in the capacity-2 DropNewest scenario, once all 10 Info
records have been sent and the queue has been fully drained (by the
consumer and the close-time drain), processed plus dropped-Info equals
10 — each record was counted exactly once, either as processed or as
dropped. -/
theorem scenario_processed_plus_dropped
    (s : ScenState) (h : ScenReach (scenInit 2) s)
    (hsent : s.sent = 10) (hdrained : s.queue.buf = []) :
    s.stats.ProcessedTotal + s.stats.DroppedInfo = 10 := by
  obtain ⟨hsum, -, -⟩ := scenReach_inv h
  rw [hdrained] at hsum
  simp at hsum
  omega

/-- A concrete full run of the C5 scenario: the first two records are
enqueued, the next eight are dropped, and the consumer then drains both
queued records. -/
theorem scenTrace :
    ScenReach (scenInit 2) ⟨⟨[], 2, false⟩, ⟨0, 8, 0, 0, 0, 2⟩, 10⟩ := by
  have r1 : ScenReach (scenInit 2) ⟨⟨[infoEntry], 2, false⟩, NewStats, 1⟩ :=
    (ScenReach.refl _).tail
      (ScenStep.produce _ ⟨⟨[infoEntry], 2, false⟩, NewStats, [], none⟩ (by decide) rfl)
  have r2 : ScenReach (scenInit 2) ⟨⟨[infoEntry, infoEntry], 2, false⟩, NewStats, 2⟩ :=
    r1.tail (ScenStep.produce _
      ⟨⟨[infoEntry, infoEntry], 2, false⟩, NewStats, [], none⟩ (by decide) rfl)
  have r3 : ScenReach (scenInit 2)
      ⟨⟨[infoEntry, infoEntry], 2, false⟩, ⟨0, 1, 0, 0, 0, 0⟩, 3⟩ :=
    r2.tail (ScenStep.produce _
      ⟨⟨[infoEntry, infoEntry], 2, false⟩, ⟨0, 1, 0, 0, 0, 0⟩, [], none⟩ (by decide) rfl)
  have r4 : ScenReach (scenInit 2)
      ⟨⟨[infoEntry, infoEntry], 2, false⟩, ⟨0, 2, 0, 0, 0, 0⟩, 4⟩ :=
    r3.tail (ScenStep.produce _
      ⟨⟨[infoEntry, infoEntry], 2, false⟩, ⟨0, 2, 0, 0, 0, 0⟩, [], none⟩ (by decide) rfl)
  have r5 : ScenReach (scenInit 2)
      ⟨⟨[infoEntry, infoEntry], 2, false⟩, ⟨0, 3, 0, 0, 0, 0⟩, 5⟩ :=
    r4.tail (ScenStep.produce _
      ⟨⟨[infoEntry, infoEntry], 2, false⟩, ⟨0, 3, 0, 0, 0, 0⟩, [], none⟩ (by decide) rfl)
  have r6 : ScenReach (scenInit 2)
      ⟨⟨[infoEntry, infoEntry], 2, false⟩, ⟨0, 4, 0, 0, 0, 0⟩, 6⟩ :=
    r5.tail (ScenStep.produce _
      ⟨⟨[infoEntry, infoEntry], 2, false⟩, ⟨0, 4, 0, 0, 0, 0⟩, [], none⟩ (by decide) rfl)
  have r7 : ScenReach (scenInit 2)
      ⟨⟨[infoEntry, infoEntry], 2, false⟩, ⟨0, 5, 0, 0, 0, 0⟩, 7⟩ :=
    r6.tail (ScenStep.produce _
      ⟨⟨[infoEntry, infoEntry], 2, false⟩, ⟨0, 5, 0, 0, 0, 0⟩, [], none⟩ (by decide) rfl)
  have r8 : ScenReach (scenInit 2)
      ⟨⟨[infoEntry, infoEntry], 2, false⟩, ⟨0, 6, 0, 0, 0, 0⟩, 8⟩ :=
    r7.tail (ScenStep.produce _
      ⟨⟨[infoEntry, infoEntry], 2, false⟩, ⟨0, 6, 0, 0, 0, 0⟩, [], none⟩ (by decide) rfl)
  have r9 : ScenReach (scenInit 2)
      ⟨⟨[infoEntry, infoEntry], 2, false⟩, ⟨0, 7, 0, 0, 0, 0⟩, 9⟩ :=
    r8.tail (ScenStep.produce _
      ⟨⟨[infoEntry, infoEntry], 2, false⟩, ⟨0, 7, 0, 0, 0, 0⟩, [], none⟩ (by decide) rfl)
  have r10 : ScenReach (scenInit 2)
      ⟨⟨[infoEntry, infoEntry], 2, false⟩, ⟨0, 8, 0, 0, 0, 0⟩, 10⟩ :=
    r9.tail (ScenStep.produce _
      ⟨⟨[infoEntry, infoEntry], 2, false⟩, ⟨0, 8, 0, 0, 0, 0⟩, [], none⟩ (by decide) rfl)
  have r11 : ScenReach (scenInit 2)
      ⟨⟨[infoEntry], 2, false⟩, ⟨0, 8, 0, 0, 0, 1⟩, 10⟩ :=
    r10.tail (ScenStep.consume _ infoEntry [infoEntry] rfl)
  exact r11.tail (ScenStep.consume _ infoEntry [] rfl)

/-- Witness for C5 at the end state of the concrete run scenTrace. -/
theorem scenario_processed_plus_dropped_witness :
    (⟨0, 8, 0, 0, 0, 2⟩ : Stats).ProcessedTotal
      + (⟨0, 8, 0, 0, 0, 2⟩ : Stats).DroppedInfo = 10 :=
  scenario_processed_plus_dropped ⟨⟨[], 2, false⟩, ⟨0, 8, 0, 0, 0, 2⟩, 10⟩
    scenTrace rfl rfl

/-- Counterexample to claim C6 as stated: writing a 10-byte record into a
fresh handler (empty 4096-byte buffer, nothing flushed) leaves all 10
bytes buffered — zero bytes have reached the OS-level writer — yet
currentSize becomes 10, so currentSize does not equal the bytes actually
flushed since the last rotation. -/
theorem currentSize_counterexample :
    (fileBaseWrite ⟨0, ⟨4096, 0, 0⟩⟩ 10).currentSize = 10 ∧
    (fileBaseWrite ⟨0, ⟨4096, 0, 0⟩⟩ 10).bw.flushed = 0 ∧
    (fileBaseWrite ⟨0, ⟨4096, 0, 0⟩⟩ 10).currentSize ≠
      (fileBaseWrite ⟨0, ⟨4096, 0, 0⟩⟩ 10).bw.flushed := by
  refine ⟨?_, ?_, ?_⟩ <;> simp [fileBaseWrite, bufioWrite]

/-- bufio.Writer.Write neither loses nor invents bytes: flushed plus
buffered grows by exactly the bytes written, and the buffer never
overfills. -/
theorem bufioWrite_conservation (s : BufWriterState) (n : Nat)
    (hinv : s.buffered ≤ s.size) :
    (bufioWrite s n).flushed + (bufioWrite s n).buffered
        = s.flushed + s.buffered + n ∧
    (bufioWrite s n).buffered ≤ (bufioWrite s n).size := by
  rw [bufioWrite]
  split
  · constructor
    · simp
      omega
    · simp
      omega
  · split
    · rename_i hfit hzero
      constructor
      · simp
        omega
      · simp
        omega
    · rename_i hfit hzero
      rw [bufioWrite]
      split
      · rename_i hfit2
        simp at hfit2 ⊢
        omega
      · split
        · rename_i hfit2 hz2
          simp at hfit2 ⊢
          omega
        · rename_i hfit2 hz2
          simp at hz2

/-- Claim C6 (amended): after each successful write, currentSize has grown
by exactly the record's formatted byte count — the bytes accepted by the
buffered writer, whether flushed to the OS-level writer or still
buffered.  Rotation timing therefore follows logical bytes written and is
unaffected by when the internal buffer flushes (which is weaker than the
claim's "bytes actually flushed"). -/
theorem currentSize_tracks_accepted_bytes (s : FileWriteState) (n : Nat)
    (hinv : s.bw.buffered ≤ s.bw.size) :
    (fileBaseWrite s n).currentSize = s.currentSize + n ∧
    (fileBaseWrite s n).bw.flushed + (fileBaseWrite s n).bw.buffered
      = s.bw.flushed + s.bw.buffered + n :=
  ⟨rfl, (bufioWrite_conservation s.bw n hinv).1⟩

/-- Witness for the amended C6: a 10-byte write into a fresh handler. -/
theorem currentSize_tracks_accepted_bytes_witness :
    (fileBaseWrite ⟨0, ⟨4096, 0, 0⟩⟩ 10).currentSize = 0 + 10 ∧
    (fileBaseWrite ⟨0, ⟨4096, 0, 0⟩⟩ 10).bw.flushed
      + (fileBaseWrite ⟨0, ⟨4096, 0, 0⟩⟩ 10).bw.buffered = 0 + 0 + 10 :=
  currentSize_tracks_accepted_bytes ⟨0, ⟨4096, 0, 0⟩⟩ 10 (by decide)

/-- Claim C7: when a size-triggered rotation's rename fails and the
reopen of the original path succeeds, the handler keeps logging into the
reopened original file; rotation is skipped for this cycle (currentSize,
lastRotateTime and the backup-cleanup count are all unchanged), no bytes
of the triggering write are recorded, and the rename error is returned to
the caller of the write that triggered the rotation check. -/
theorem rotate_rename_failure_recovers
    (cfg : RotConfig) (o : FsOracle) (now : Nat) (s : RotState) (n : Nat)
    (bwErr : Option String) (e : String)
    (htrig : cfg.hasRotation = true)
    (hsize : 0 < cfg.maxSize ∧ cfg.maxSize ≤ s.currentSize)
    (hflush : o.flushErr = none) (hsync : o.syncErr = none)
    (hclose : o.closeErr = none)
    (hrename : o.renameErr = some e) (hreopen : o.reopenErr = none) :
    rotate cfg o now s = ({ s with file := .reopenedOriginal }, some e) ∧
    fileWriteChecked cfg o now s n bwErr
      = ({ s with file := .reopenedOriginal }, some e) ∧
    ({ s with file := FileRef.reopenedOriginal }).currentSize = s.currentSize ∧
    ({ s with file := FileRef.reopenedOriginal }).lastRotateTime = s.lastRotateTime ∧
    ({ s with file := FileRef.reopenedOriginal }).cleanups = s.cleanups := by
  have hrot : rotate cfg o now s = ({ s with file := .reopenedOriginal }, some e) := by
    simp [rotate, hflush, hsync, hclose, hrename, hreopen]
  have hneed : (0 < cfg.maxSize ∧ cfg.maxSize ≤ s.currentSize)
      ∨ (0 < cfg.maxAge ∧ cfg.maxAge ≤ now - s.lastRotateTime)
      ∨ (0 < cfg.rotateInterval ∧ cfg.rotateInterval ≤ now - s.lastRotateTime) :=
    Or.inl hsize
  have hrin : rotateIfNeeded cfg o now s
      = ({ s with file := .reopenedOriginal }, some e) := by
    rw [rotateIfNeeded, if_neg (by simp [htrig]), if_pos hneed, hrot]
  exact ⟨hrot, by simp [fileWriteChecked, hrin], rfl, rfl, rfl⟩

/-- Witness for C7: size trigger 100 ≤ 150, rename fails, reopen
succeeds. -/
theorem rotate_rename_failure_recovers_witness :
    rotate ⟨100, 0, 0, 3, true⟩ ⟨none, none, none, some "rename failed", none, none⟩
        5 ⟨150, 1, 0, .original⟩
      = ({ currentSize := 150, lastRotateTime := 1, cleanups := 0,
           file := .reopenedOriginal }, some "rename failed") ∧
    fileWriteChecked ⟨100, 0, 0, 3, true⟩
        ⟨none, none, none, some "rename failed", none, none⟩ 5
        ⟨150, 1, 0, .original⟩ 7 none
      = ({ currentSize := 150, lastRotateTime := 1, cleanups := 0,
           file := .reopenedOriginal }, some "rename failed") ∧
    (⟨150, 1, 0, .reopenedOriginal⟩ : RotState).currentSize = 150 ∧
    (⟨150, 1, 0, .reopenedOriginal⟩ : RotState).lastRotateTime = 1 ∧
    (⟨150, 1, 0, .reopenedOriginal⟩ : RotState).cleanups = 0 :=
  rotate_rename_failure_recovers ⟨100, 0, 0, 3, true⟩
    ⟨none, none, none, some "rename failed", none, none⟩ 5
    ⟨150, 1, 0, .original⟩ 7 none "rename failed"
    rfl (by decide) rfl rfl rfl rfl rfl

theorem getLast?_cons_match (a : String) (l : List String) :
    (a :: l).getLast? = match l.getLast? with
      | some e => some e
      | none => some a := by
  induction l generalizing a with
  | nil => rfl
  | cons b l ih =>
    rw [List.getLast?_cons_cons, ih b]
    cases hl : l.getLast? <;> simp

theorem lastFailureSpec_cons (r : Option String) (rest : List (Option String)) :
    lastFailureSpec (r :: rest) =
      match lastFailureSpec rest with
      | some e => some e
      | none => r := by
  cases r with
  | none =>
    simp only [lastFailureSpec, List.filterMap_cons, id]
    cases (rest.filterMap id).getLast? <;> rfl
  | some a =>
    simp only [lastFailureSpec, List.filterMap_cons, id]
    rw [getLast?_cons_match a (rest.filterMap id)]

theorem multiLoop_spec (results : List (Option String)) (i : Nat) :
    multiLoop results i = (List.range' i results.length, lastFailureSpec results) := by
  induction results generalizing i with
  | nil => simp [multiLoop, lastFailureSpec]
  | cons r rest ih =>
    simp only [multiLoop, ih, List.length_cons, List.range'_succ]
    rw [lastFailureSpec_cons]

/-- Claim C8: MultiHandler.Handle and MultiHandler.Close each invoke
every child in order — an earlier child's error never stops delivery to
its siblings — and return the error of the last child that failed (nil
when no child fails). -/
theorem multiHandler_all_children_last_error (hs cs : List (Option String)) :
    multiHandleRun hs = (List.range hs.length, lastFailureSpec hs) ∧
    multiCloseRun cs = (List.range cs.length, lastFailureSpec cs) := by
  constructor <;>
    simp [multiHandleRun, multiCloseRun, multiLoop_spec, List.range_eq_range']

/-- Claim C9: when the queue is full and a Fatal- or Panic-level record
resolves to a drop — DropNewest by default (those levels are absent from
the default policy map) or an explicitly configured DropOldest —
Stats.IncrementDropped is reached with that level and its switch's
default branch panics instead of Handle returning. -/
theorem asyncHandle_fatal_drop_panics
    (race : BlockRace) (w : Option String) (c : Chan) (st : Stats)
    (l : Level) (m : String)
    (hl : l = .FatalLevel ∨ l = .PanicLevel)
    (hopen : c.isClosed = false)
    (hfull : c.cap ≤ c.buf.length) :
    asyncHandle DefaultLevelPolicy race w c st ⟨l, m⟩
      = .error unhandledLevelPanic ∧
    asyncHandle (fun x => if x = l then some .DropOldest else none) race w c st ⟨l, m⟩
      = .error unhandledLevelPanic := by
  have hts := trySend_full hopen hfull (⟨l, m⟩ : Entry)
  rcases hl with h | h <;> subst h <;>
    refine ⟨by simp [asyncHandle, resolvePolicy, DefaultLevelPolicy, hts,
                     Stats.IncrementDropped], ?_⟩ <;>
    (cases hbuf : c.buf with
     | nil =>
       simp [asyncHandle, resolvePolicy, hts, tryRecv, hbuf, hopen,
             Stats.IncrementDropped]
     | cons hd tl =>
       simp [asyncHandle, resolvePolicy, hts, tryRecv, hbuf,
             Stats.IncrementDropped])

/-- Witness for C9: a full capacity-1 queue and a Fatal record. -/
theorem asyncHandle_fatal_drop_panics_witness :
    asyncHandle DefaultLevelPolicy .timerFired none
        ⟨[⟨.InfoLevel, "a"⟩], 1, false⟩ NewStats ⟨.FatalLevel, "b"⟩
      = .error unhandledLevelPanic ∧
    asyncHandle (fun x => if x = Level.FatalLevel then some .DropOldest else none)
        .timerFired none ⟨[⟨.InfoLevel, "a"⟩], 1, false⟩ NewStats ⟨.FatalLevel, "b"⟩
      = .error unhandledLevelPanic :=
  asyncHandle_fatal_drop_panics .timerFired none
    ⟨[⟨.InfoLevel, "a"⟩], 1, false⟩ NewStats .FatalLevel "b"
    (Or.inl rfl) rfl (by decide)

/-- Claim C10: once Close has closed the queue channel, every Handle call
reaches a send attempt on that closed channel on all three policy paths,
which is a Go runtime panic (send on closed channel), not an error
return. -/
theorem asyncHandle_after_close_panics
    (pol : Level → Option OverflowPolicy) (race : BlockRace) (w : Option String)
    (c : Chan) (st : Stats) (e : Entry) :
    asyncHandle pol race w (closeQueue c) st e = .error "send on closed channel" := by
  have hts : trySend (closeQueue c) e = .error "send on closed channel" := by
    simp [trySend, closeQueue]
  cases hpol : resolvePolicy pol e.level <;> simp [asyncHandle, hpol, hts]

end NLog
